import Mathlib

/-!
Verification of the clinic patient-tracking backend (`src/app.py`).

The Python source is shallowly embedded: pure helpers become Lean functions,
the module-level cache globals become an explicit `CacheState` threaded through
the handlers, the remote spreadsheet becomes an explicit list of rows, and the
`try/except` blocks become `Except String` values fed into the handlers.
Machine details that matter are modelled explicitly: Python `//` and `%` on the
nonnegative numbers reached by `column_to_letter` agree with `Int.fdiv` and
`Int.emod`; Python truthiness (`or ""`, `if not raw`) is modelled by explicit
emptiness tests; Python `int(...)` raising `ValueError` on a non-numeric string
is modelled by an `Option Int` parser.
-/

/-! ## Python-semantics helpers

Python's string operations are re-implemented structurally over `List Char`
(the corresponding Lean core `String` functions are position-based and do not
reduce inside the kernel), with the exact semantics the app relies on. -/

/-- Python `needle in hay` on lists (contiguous substring occurrence). -/
def listIn (needle : List Char) : List Char → Bool
  | [] => needle.isEmpty
  | c :: rest => List.isPrefixOf needle (c :: rest) || listIn needle rest

/-- Python `needle in hay` for strings: substring containment. -/
def pyIn (needle hay : String) : Bool :=
  listIn needle.toList hay.toList

/-- Python `str.lower()` (ASCII inputs). -/
def pyLower (s : String) : String :=
  String.mk (s.toList.map Char.toLower)

/-- Python `str.strip()`: remove leading and trailing whitespace. -/
def charsTrim (l : List Char) : List Char :=
  ((l.dropWhile Char.isWhitespace).reverse.dropWhile Char.isWhitespace).reverse

/-- Python `str.strip()` on strings. -/
def pyTrim (s : String) : String :=
  String.mk (charsTrim s.toList)

/-- Python `str.capitalize()`: first character uppercased, the rest lowercased. -/
def pyCapitalize (s : String) : String :=
  match s.toList with
  | [] => ""
  | c :: rest => String.mk (c.toUpper :: rest.map Char.toLower)

/-- One pass of Python `str.replace` (left-to-right, non-overlapping); the
fuel is an upper bound on the remaining input length, so it never runs out. -/
def replaceAux (pat rep : List Char) : Nat → List Char → List Char
  | 0, l => l
  | _ + 1, [] => []
  | fuel + 1, c :: rest =>
    if List.isPrefixOf pat (c :: rest) then
      rep ++ replaceAux pat rep fuel ((c :: rest).drop pat.length)
    else c :: replaceAux pat rep fuel rest

/-- Python `s.replace(pat, rep)` for a nonempty pattern. -/
def pyReplace (s pat rep : String) : String :=
  if pat.toList.isEmpty then s
  else String.mk (replaceAux pat.toList rep.toList s.toList.length s.toList)

/-- One pass of Python `str.split(sep)`; `acc` holds the current field in
reverse, the fuel is an upper bound on the remaining input length. -/
def splitOnAux (sep : List Char) : Nat → List Char → List Char → List (List Char)
  | 0, acc, l => [acc.reverse ++ l]
  | _ + 1, acc, [] => [acc.reverse]
  | fuel + 1, acc, c :: rest =>
    if List.isPrefixOf sep (c :: rest) then
      acc.reverse :: splitOnAux sep fuel [] ((c :: rest).drop sep.length)
    else splitOnAux sep fuel (c :: acc) rest

/-- Python `s.split(sep)` for a nonempty separator. -/
def pySplitOn (s sep : String) : List String :=
  if sep.toList.isEmpty then [s]
  else (splitOnAux sep.toList s.toList.length [] s.toList).map String.mk

/-- The numeric value of a digit list. -/
def digitsVal (l : List Char) : Nat :=
  l.foldl (fun a c => a * 10 + (c.toNat - 48)) 0

/-- Python `int(s)` restricted to the inputs the app can see: strips
whitespace, accepts an optional sign followed by decimal digits, and fails
(`ValueError`, modelled as `none`) otherwise. -/
def pyInt (s : String) : Option Int :=
  let t := charsTrim s.toList
  let (sign, digits) : Int × List Char :=
    match t with
    | '-' :: rest => (-1, rest)
    | '+' :: rest => (1, rest)
    | _ => (1, t)
  if digits.isEmpty || !(digits.all Char.isDigit) then none
  else some (sign * (digitsVal digits : Int))

/-- JSON values that can appear in an incoming payload: a string or a list of
strings (the form submits `Visit Days` as a list). -/
inductive JVal where
  | str (s : String)
  | list (l : List String)
deriving DecidableEq

/-- Python `str(v)` on a payload value (`repr`-style for lists). -/
def pyStr : JVal → String
  | .str s => s
  | .list l => "[" ++ String.intercalate ", " (l.map (fun x => "'" ++ x ++ "'")) ++ "]"

/-- Python `v or ""`: a falsy value (empty string or empty list) becomes `""`. -/
def pyOr : JVal → JVal
  | .str "" => .str ""
  | .list [] => .str ""
  | v => v

/-- An incoming JSON object, as an insertion-ordered association list
(Python dicts preserve insertion order and have unique keys). -/
abbrev Payload := List (String × JVal)

/-- A normalized patient record: an insertion-ordered mapping from field name
to cell string (a Python dict). -/
abbrev Dict := List (String × String)

/-- Python `d.setdefault(k, v)`: inserts `(k, v)` at the end iff `k` is absent. -/
def setdefault (d : Dict) (k v : String) : Dict :=
  if d.any (fun kv => kv.1 == k) then d else d ++ [(k, v)]

/-- Python `d[k] = v` on a `Payload`: replace the first binding of `k` in
place, or append if absent. -/
def dictSet : Payload → String → JVal → Payload
  | [], k, v => [(k, v)]
  | (k', v') :: rest, k, v =>
    if k' == k then (k, v) :: rest else (k', v') :: dictSet rest k v

/-! ## Module-level constants (`src/app.py` lines 38-75) -/

def CACHE_TTL : Nat := 30

def CANONICAL_HEADERS : List String :=
  ["Patient ID", "Name", "Number", "Age", "Gender", "Occupation", "Ref. by",
   "Address", "Date of joining", "Conditions", "Time", "Visit Days", "Visit Count"]

def ALLOWED_KEY_VARIANTS : List (String × List String) :=
  [("Patient ID", ["Patient ID", "Patient_ID", "patient_id", "patient id"]),
   ("Name", ["Name", "name"]),
   ("Number", ["Number", "number"]),
   ("Age", ["Age", "age"]),
   ("Gender", ["Gender", "gender"]),
   ("Occupation", ["Occupation", "occupation"]),
   ("Ref. by", ["Ref. by", "Ref.by", "Ref_by", "Ref by", "ref by", "ref.by"]),
   ("Address", ["Address", "address"]),
   ("Date of joining", ["Date of joining", "Date_of_joining", "Date of Joining", "date of joining"]),
   ("Conditions", ["Conditions", "conditions"]),
   ("Time", ["Time", "time"]),
   ("Visit Days", ["Visit Days", "Visit_Days", "visit days", "visit_days"]),
   ("Visit Count", ["Visit Count", "Visit_Count", "visit_count"])]

/-! ## `column_to_letter` (`src/app.py` lines 117-122)

The Python `while col_index >= 0` loop is embedded with an explicit fuel
argument bounding the number of iterations: each iteration prepends the letter
for `col_index % 26` and continues with `col_index // 26 - 1` (Python floor
division and positive remainder are `Int.fdiv` and `Int.emod`).  `col.toNat + 1`
units of fuel always suffice because the index strictly decreases. -/

def columnToLetterLoop : Nat → String → Int → String
  | 0, letters, _ => letters
  | fuel + 1, letters, col_index =>
    if 0 ≤ col_index then
      columnToLetterLoop fuel
        (String.singleton (Char.ofNat ((Int.emod col_index 26).toNat + 65)) ++ letters)
        (Int.fdiv col_index 26 - 1)
    else letters

def column_to_letter (col_index : Int) : String :=
  columnToLetterLoop (col_index.toNat + 1) "" col_index

/-! ## Day-token parsing (`src/app.py` lines 124-144) -/

/-- `parse_visit_days`: lowercase, normalize the separators
`; / \ | " - " - " to "` and newline to commas, split on commas, strip, and
drop empty tokens. -/
def parse_visit_days (raw : String) : List String :=
  if raw = "" then []
  else
    let s := pyLower raw
    let s := [";", "/", "\\", "|", " - ", "-", " to "].foldl
      (fun acc sep => pyReplace acc sep ",") s
    let s := pyReplace s "\n" ","
    ((pySplitOn s ",").map pyTrim).filter (fun t => t ≠ "")

/-- `matches_today`, with `datetime.today().strftime("%A").lower()` made an
explicit parameter `today_full`.  Mirrors the loop: the first token containing
`"daily"`, equal to the full or three-letter day name, or containing either,
returns `true`. -/
def matches_today (today_full : String) : List String → Bool
  | [] => false
  | t :: ts =>
    let today_short := String.mk (today_full.toList.take 3)
    if pyIn "daily" t then true
    else if t == today_full || t == today_short then true
    else if pyIn today_full t || pyIn today_short t then true
    else matches_today today_full ts

/-! ## Header resolution (`src/app.py` lines 146-164) -/

/-- The dict comprehension `{str(k).lower(): v for k, v in data_dict.items()}`:
later entries overwrite earlier ones, so lookup must find the *last* matching
original pair; reversing the lowered list makes first-match lookup do that. -/
def lowerMap (d : Payload) : Payload :=
  (d.map (fun kv => (pyLower kv.1, kv.2))).reverse

/-- `ALLOWED_KEY_VARIANTS.get(header, [header])`. -/
def findVariantsOf (header : String) : List String :=
  (List.lookup header ALLOWED_KEY_VARIANTS).getD [header]

/-- The last resort of `find_value_for_header`: the header itself as a
literal key, else `""`. -/
def findFallback (data_dict : Payload) (header : String) : JVal :=
  if data_dict.any (fun kv => kv.1 == header) then
    (List.lookup header data_dict).getD (JVal.str "")
  else JVal.str ""

/-- The case-insensitive retry of `find_value_for_header`: the first variant
whose lowercase form is a key of `lower_map`. -/
def findCaseInsensitive (data_dict : Payload) (header : String)
    (variants : List String) : JVal :=
  match variants.find? (fun k => (lowerMap data_dict).any (fun kv => kv.1 == pyLower k)) with
  | some k => (List.lookup (pyLower k) (lowerMap data_dict)).getD (JVal.str "")
  | none => findFallback data_dict header

/-- `find_value_for_header(data_dict, header)`: try every allowed variant as an
exact key, then case-insensitively, then the header itself, else `""`. -/
def find_value_for_header (data_dict : Payload) (header : String) : JVal :=
  match (findVariantsOf header).find? (fun k => data_dict.any (fun kv => kv.1 == k)) with
  | some k => (List.lookup k data_dict).getD (JVal.str "")
  | none => findCaseInsensitive data_dict header (findVariantsOf header)

/-! ## Patient cache (`src/app.py` lines 77-114) -/

/-- One normalized record, built from a data row: for each canonical header,
`headers_from_sheet.index(canonical_h)` locates the column (the
`ValueError` branch yields `""`), and a too-short row also yields `""`. -/
def buildPatient (headers_from_sheet row : List String) : Dict :=
  CANONICAL_HEADERS.map (fun h =>
    (h, match headers_from_sheet.findIdx? (fun x => x == h) with
        | some i => row.getD i ""
        | none => ""))

/-- The cache-refresh body: empty sheet gives no records, otherwise row 1 is
the header row and the rest are data rows. -/
def refreshRecords (values : List (List String)) : List Dict :=
  match values with
  | [] => []
  | headers :: data_rows => data_rows.map (buildPatient headers)

/-- The module globals `_last_cache_time` and `_cached_patients`. -/
structure CacheState where
  last_cache_time : Nat
  cached_patients : List Dict
deriving DecidableEq

/-- `get_cached_patients()`: refresh from the sheet iff
`now - _last_cache_time > CACHE_TTL`.  The remote read is the `fetch`
argument (`Except` models the `try/except` at the handler boundary); the
returned `Bool` records whether a remote fetch was performed. -/
def get_cached_patients (fetch : Except String (List (List String))) (now : Nat)
    (s : CacheState) : Except String (List Dict × CacheState × Bool) :=
  if now - s.last_cache_time > CACHE_TTL then
    match fetch with
    | .error e => .error e
    | .ok values =>
      let recs := refreshRecords values
      .ok (recs, ⟨now, recs⟩, true)
  else
    .ok (s.cached_patients, s, false)

/-! ## HTTP handlers (`src/app.py` lines 171-295) -/

/-- The JSON body of a response: either an array of records or an object with
the fields the handlers actually emit. -/
inductive ApiBody where
  | records (rs : List Dict)
  | obj (status : String) (message : Option String) (patient_id : Option String)
        (new_count : Option Int)
deriving DecidableEq

/-- The `status` field of a response body, when the body is an object. -/
def ApiBody.statusOf : ApiBody → Option String
  | .records _ => none
  | .obj s _ _ _ => some s

structure HandlerResult where
  body : ApiBody
  code : Nat
  cache : CacheState
deriving DecidableEq

/-- `GET /api/patients`. -/
def get_patients (fetch : Except String (List (List String))) (now : Nat)
    (s : CacheState) : HandlerResult :=
  match get_cached_patients fetch now s with
  | .ok (recs, s', _) => ⟨.records recs, 200, s'⟩
  | .error e => ⟨.obj "error" (some e) none none, 500, s⟩

/-- The three `setdefault` calls applied to a matching record of
`GET /api/patients/today`. -/
def applyTodayDefaults (p : Dict) : Dict :=
  setdefault (setdefault (setdefault p "Visit Count" "0") "Patient ID" "") "Patient_ID" ""

/-- The `for p in patients` loop of `GET /api/patients/today`.  The
`setdefault` calls mutate the cached dicts in place, so the loop yields both
the updated cache list and the list of matching records (the same objects). -/
def todayLoop (today_full : String) : List Dict → List Dict × List Dict
  | [] => ([], [])
  | p :: ps =>
    let rest := todayLoop today_full ps
    if matches_today today_full (parse_visit_days ((List.lookup "Visit Days" p).getD "")) then
      let p' := applyTodayDefaults p
      (p' :: rest.1, p' :: rest.2)
    else (p :: rest.1, rest.2)

/-- `GET /api/patients/today`. -/
def get_today_patients (today_full : String) (fetch : Except String (List (List String)))
    (now : Nat) (s : CacheState) : HandlerResult :=
  match get_cached_patients fetch now s with
  | .ok (recs, s', _) =>
    let r := todayLoop today_full recs
    ⟨.records r.2, 200, ⟨s'.last_cache_time, r.1⟩⟩
  | .error e => ⟨.obj "error" (some e) none none, 500, s⟩

/-! ### `POST /api/patients` (`src/app.py` lines 197-236) -/

/-- The `", ".join(...)` over a list-valued `Visit Days`, or `strip` of a
string-valued one. -/
def visitDaysString (raw_days : JVal) : String :=
  match raw_days with
  | .list l =>
    String.intercalate ", "
      ((l.filter (fun x => pyTrim x ≠ "")).map (fun x => pyCapitalize (pyTrim x)))
  | .str s => pyTrim s

/-- The `standardized_data` dict right after the loop: every canonical header
mapped to its resolved payload value, with `or ""` coercing falsy values. -/
def standardizedBase (d : Payload) : Payload :=
  CANONICAL_HEADERS.map (fun h => (h, pyOr (find_value_for_header d h)))

/-- `standardized_data["Visit Days"] = visit_days_str`. -/
def standardizedWithDays (d : Payload) : Payload :=
  dictSet (standardizedBase d) "Visit Days"
    (.str (visitDaysString (pyOr (find_value_for_header d "Visit Days"))))

/-- `standardized_data["Visit Count"] = str(standardized_data.get("Visit Count", "0"))`. -/
def standardizedData (d : Payload) : Payload :=
  dictSet (standardizedWithDays d) "Visit Count"
    (.str (pyStr ((List.lookup "Visit Count" (standardizedWithDays d)).getD (.str "0"))))

/-- The row built by `add_patient`, read back from the standardized dict
strictly in canonical order. -/
def add_patient_row (d : Payload) : List JVal :=
  CANONICAL_HEADERS.map (fun h => (List.lookup h (standardizedData d)).getD (.str ""))

structure AddResult where
  body : ApiBody
  code : Nat
  cacheInvalidated : Bool
deriving DecidableEq

/-- The response of `POST /api/patients`; `appendResult` models the remote
append call.  On success the handler sets `_last_cache_time = 0`. -/
def add_patient (appendResult : Except String Unit) : AddResult :=
  match appendResult with
  | .error e => ⟨.obj "error" (some e) none none, 500, false⟩
  | .ok _ => ⟨.obj "success" none none none, 201, true⟩

/-! ### `PUT /api/patients/<id>/attend` (`src/app.py` lines 243-295) -/

/-- `headers.index("Patient ID")` with the `Patient_ID` fallback. -/
def pidColOf (headers : List String) : Option Nat :=
  match headers.findIdx? (fun h => h == "Patient ID") with
  | some i => some i
  | none => headers.findIdx? (fun h => h == "Patient_ID")

/-- `headers.index("Visit Count")` with the `Visit_Count` fallback. -/
def vcColOf (headers : List String) : Option Nat :=
  match headers.findIdx? (fun h => h == "Visit Count") with
  | some i => some i
  | none => headers.findIdx? (fun h => h == "Visit_Count")

inductive ScanResult where
  | updated (row_number : Nat) (new_count : Int)
  | parseFailure (cell : String)
  | notFound
deriving DecidableEq

/-- `str(row[pid_col]) if len(row) > pid_col else ""`. -/
def rowPid (pid_col : Nat) (row : List String) : String :=
  row.getD pid_col ""

/-- `int(row[visit_count_col] or "0") if len(row) > visit_count_col else 0`:
a missing cell (row too short) or an empty cell counts as 0; a nonempty
non-integer cell fails (`ValueError`, modelled as `none`). -/
def rowCount (vc_col : Nat) (row : List String) : Option Int :=
  if vc_col < row.length then
    pyInt (if row.getD vc_col "" == "" then "0" else row.getD vc_col "")
  else some 0

/-- The `for row_idx, row in enumerate(data_rows, start=2)` scan: the first
row whose Patient ID cell equals the path parameter is updated and the loop
breaks. -/
def scanRows (patient_id : String) (pid_col vc_col : Nat) :
    Nat → List (List String) → ScanResult
  | _, [] => .notFound
  | row_idx, row :: rest =>
    if rowPid pid_col row == patient_id then
      match rowCount vc_col row with
      | some current_count => .updated row_idx (current_count + 1)
      | none => .parseFailure (row.getD vc_col "")
    else scanRows patient_id pid_col vc_col (row_idx + 1) rest

structure MarkResponse where
  status : String
  message : Option String
  patient_id : Option String
  new_count : Option Int
  code : Nat
  /-- the single `update_cell` write, as (row number, column index, value) -/
  cellWrite : Option (Nat × Nat × String)
deriving DecidableEq

/-- The `{"status": "error", "message": "No data in sheet"}, 404` response. -/
def noDataResponse : MarkResponse :=
  ⟨"error", some "No data in sheet", none, none, 404, none⟩

/-- The response assembled from the scan outcome: "updated" with the new
count and the single cell write, the `ValueError` bubbling into the `except`
as a 500 error, or "not found" with 404. -/
def markScanResponse (patient_id : String) (vc_col : Nat) : ScanResult → MarkResponse
  | .updated row_number new_count =>
    ⟨"updated", none, some patient_id, some new_count, 200,
     some (row_number, vc_col, toString new_count)⟩
  | .parseFailure cell =>
    ⟨"error", some ("invalid literal for int() with base 10: '" ++ cell ++ "'"),
     none, none, 500, none⟩
  | .notFound => ⟨"not found", none, some patient_id, none, 404, none⟩

/-- `if pid_col is None or visit_count_col is None` and the scan, as a
function of the two resolved column indices. -/
def markColsResponse (patient_id : String) (data_rows : List (List String)) :
    Option Nat → Option Nat → MarkResponse
  | some pid_col, some vc_col =>
    markScanResponse patient_id vc_col (scanRows patient_id pid_col vc_col 2 data_rows)
  | _, _ => ⟨"error", some "Required columns missing in sheet", none, none, 500, none⟩

/-- `PUT /api/patients/<patient_id>/attend`. -/
def mark_attendance (action patient_id : String)
    (fetch : Except String (List (List String))) : MarkResponse :=
  if pyLower action != "confirm" then
    ⟨"ignored", some "action not confirm", none, none, 200, none⟩
  else
    match fetch with
    | .error e => ⟨"error", some e, none, none, 500, none⟩
    | .ok values =>
      match values with
      | [] => noDataResponse
      | [_] => noDataResponse
      | headers :: data_rows =>
        markColsResponse patient_id data_rows (pidColOf headers) (vcColOf headers)

/-! ## System level: the sheet plus the cache globals -/

structure Sys where
  sheet : List (List String)
  cache : CacheState
deriving DecidableEq

/-- Write one cell of the sheet (padding the row as the Sheets API would). -/
def setCell (values : List (List String)) (r c : Nat) (v : String) : List (List String) :=
  values.set r (((values.getD r []) ++ List.replicate (c + 1 - (values.getD r []).length) "").set c v)

/-- `POST /api/patients` at the system level: append the row, then set
`_last_cache_time = 0`. -/
def sysAddPatient (d : Payload) (s : Sys) : Sys × AddResult :=
  (⟨s.sheet ++ [(add_patient_row d).map pyStr], ⟨0, s.cache.cached_patients⟩⟩,
   add_patient (.ok ()))

/-- `PUT /api/patients/<id>/attend` at the system level: the handler reads the
sheet directly and performs its single cell write; it never touches the cache
globals (the source has no cache invalidation in `mark_attendance`). -/
def sysMarkAttendance (action pid : String) (s : Sys) : Sys × MarkResponse :=
  let r := mark_attendance action pid (.ok s.sheet)
  match r.cellWrite with
  | some (row_number, col, v) => (⟨setCell s.sheet (row_number - 1) col v, s.cache⟩, r)
  | none => (s, r)

/-! ## Lemmas about `column_to_letter` -/

theorem loop_neg (fuel : Nat) (letters : String) (col : Int) (h : col < 0) :
    columnToLetterLoop fuel letters col = letters := by
  cases fuel with
  | zero => rfl
  | succ n => simp [columnToLetterLoop, Int.not_le.mpr h]

theorem loop_pos (fuel : Nat) (letters : String) (col : Int) (h : 0 ≤ col) :
    columnToLetterLoop (fuel + 1) letters col
      = columnToLetterLoop fuel
          (String.singleton (Char.ofNat ((Int.emod col 26).toNat + 65)) ++ letters)
          (Int.fdiv col 26 - 1) := by
  simp [columnToLetterLoop, h]

/-- The loop index strictly decreases on every iteration. -/
theorem fdiv_sub_one_lt (col : Int) (h : 0 ≤ col) : Int.fdiv col 26 - 1 < col := by
  rw [Int.fdiv_eq_ediv _ (by omega)]
  omega

theorem loop_stable (fuel : Nat) :
    ∀ (col : Int) (letters : String), col.toNat < fuel →
      columnToLetterLoop fuel letters col = columnToLetterLoop (fuel + 1) letters col := by
  induction fuel with
  | zero => intro col letters h; exact absurd h (Nat.not_lt_zero _)
  | succ n ih =>
    intro col letters h
    by_cases hc : 0 ≤ col
    · rw [loop_pos n _ _ hc, loop_pos (n + 1) _ _ hc]
      by_cases hc' : 0 ≤ Int.fdiv col 26 - 1
      · exact ih _ _ (by have := fdiv_sub_one_lt col hc; omega)
      · rw [loop_neg n _ _ (by omega), loop_neg (n + 1) _ _ (by omega)]
    · rw [loop_neg _ _ _ (by omega), loop_neg _ _ _ (by omega)]

theorem loop_stable_ge (fuel fuel' : Nat) (col : Int) (letters : String)
    (h : col.toNat < fuel) (hle : fuel ≤ fuel') :
    columnToLetterLoop fuel letters col = columnToLetterLoop fuel' letters col := by
  induction fuel' with
  | zero => omega
  | succ m ih =>
    rcases Nat.eq_or_lt_of_le hle with heq | hlt
    · rw [heq]
    · rw [ih (by omega), loop_stable m col letters (by omega)]

theorem loop_acc (fuel : Nat) :
    ∀ (col : Int) (letters : String),
      columnToLetterLoop fuel letters col = columnToLetterLoop fuel "" col ++ letters := by
  induction fuel with
  | zero => intro col letters; exact (String.empty_append letters).symm
  | succ n ih =>
    intro col letters
    by_cases hc : 0 ≤ col
    · rw [loop_pos _ _ _ hc, loop_pos _ _ _ hc, ih _ (_ ++ letters), ih _ (_ ++ "")]
      rw [String.append_empty, String.append_assoc]
    · rw [loop_neg _ _ _ (by omega), loop_neg _ _ _ (by omega)]
      exact (String.empty_append letters).symm

theorem column_to_letter_neg (col : Int) (h : col < 0) : column_to_letter col = "" :=
  loop_neg _ _ _ h

theorem column_to_letter_rec (col : Int) (h : 0 ≤ col) :
    column_to_letter col
      = column_to_letter (Int.fdiv col 26 - 1)
        ++ String.singleton (Char.ofNat ((Int.emod col 26).toNat + 65)) := by
  show columnToLetterLoop (col.toNat + 1) "" col = _
  rw [loop_pos _ _ _ h, loop_acc, String.append_empty]
  by_cases hc' : 0 ≤ Int.fdiv col 26 - 1
  · have h1 : (Int.fdiv col 26 - 1).toNat < col.toNat := by
      have := fdiv_sub_one_lt col h; omega
    show _ = columnToLetterLoop ((Int.fdiv col 26 - 1).toNat + 1) "" _ ++ _
    rw [loop_stable_ge ((Int.fdiv col 26 - 1).toNat + 1) col.toNat _ "" (by omega) (by omega)]
  · rw [loop_neg _ _ _ (by omega)]
    show _ = column_to_letter (Int.fdiv col 26 - 1) ++ _
    rw [column_to_letter_neg _ (by omega), String.empty_append]

theorem column_to_letter_ofNat_small (n : Nat) (h : n < 26) :
    column_to_letter (n : Int) = String.singleton (Char.ofNat (n + 65)) := by
  rw [column_to_letter_rec _ (by omega)]
  have h1 : Int.fdiv (n : Int) 26 - 1 = -1 := by
    rw [show ((26 : Int) = ((26 : Nat) : Int)) from rfl, ← Int.ofNat_fdiv]
    omega
  have h2 : (Int.emod (n : Int) 26).toNat = n := by
    rw [show Int.emod (n : Int) 26 = (n : Int) % ((26 : Nat) : Int) from rfl,
      ← Int.ofNat_emod]
    omega
  rw [h1, h2, column_to_letter_neg _ (by omega), String.empty_append]

theorem column_to_letter_ofNat_rec (n : Nat) (h : 26 ≤ n) :
    column_to_letter (n : Int)
      = column_to_letter ((n / 26 - 1 : Nat) : Int)
        ++ String.singleton (Char.ofNat (n % 26 + 65)) := by
  rw [column_to_letter_rec _ (by omega)]
  have h1 : Int.fdiv (n : Int) 26 - 1 = ((n / 26 - 1 : Nat) : Int) := by
    rw [show ((26 : Int) = ((26 : Nat) : Int)) from rfl, ← Int.ofNat_fdiv]
    have : 1 ≤ n / 26 := by omega
    omega
  have h2 : (Int.emod (n : Int) 26).toNat = n % 26 := by
    rw [show Int.emod (n : Int) 26 = (n : Int) % ((26 : Nat) : Int) from rfl,
      ← Int.ofNat_emod]
    omega
  rw [h1, h2]

theorem column_to_letter_data_ne_nil (n : Nat) : (column_to_letter (n : Int)).data ≠ [] := by
  rcases Nat.lt_or_ge n 26 with h | h
  · rw [column_to_letter_ofNat_small n h]
    simp [String.singleton]
  · rw [column_to_letter_ofNat_rec n h, String.data_append]
    simp [String.singleton]

theorem letter_char_inj : ∀ x : Nat, x < 26 → ∀ y : Nat, y < 26 →
    Char.ofNat (x + 65) = Char.ofNat (y + 65) → x = y := by decide

theorem data_singleton (c : Char) : (String.singleton c).data = [c] := rfl

theorem eq_nil_of_singleton_eq_append (c c' : Char) (l : List Char)
    (h : [c] = l ++ [c']) : l = [] := by
  cases l with
  | nil => rfl
  | cons x xs =>
    have hlen := congrArg List.length h
    simp only [List.length_cons, List.length_append, List.length_nil] at hlen
    omega

theorem column_to_letter_inj : ∀ a b : Nat,
    column_to_letter (a : Int) = column_to_letter (b : Int) → a = b := by
  intro a
  induction a using Nat.strong_induction_on with
  | _ a ih =>
    intro b heq
    have hdata := congrArg String.data heq
    rcases Nat.lt_or_ge a 26 with ha | ha <;> rcases Nat.lt_or_ge b 26 with hb | hb
    · rw [column_to_letter_ofNat_small a ha, column_to_letter_ofNat_small b hb,
        data_singleton, data_singleton] at hdata
      exact letter_char_inj a ha b hb (by injection hdata with h1 _)
    · rw [column_to_letter_ofNat_small a ha, column_to_letter_ofNat_rec b hb,
        String.data_append, data_singleton, data_singleton] at hdata
      exact absurd (eq_nil_of_singleton_eq_append _ _ _ hdata)
        (column_to_letter_data_ne_nil (b / 26 - 1))
    · rw [column_to_letter_ofNat_rec a ha, column_to_letter_ofNat_small b hb,
        String.data_append, data_singleton, data_singleton] at hdata
      exact absurd (eq_nil_of_singleton_eq_append _ _ _ hdata.symm)
        (column_to_letter_data_ne_nil (a / 26 - 1))
    · rw [column_to_letter_ofNat_rec a ha, column_to_letter_ofNat_rec b hb,
        String.data_append, String.data_append] at hdata
      have hsplit := List.append_inj' hdata (by simp [String.singleton])
      have hpre : column_to_letter ((a / 26 - 1 : Nat) : Int)
          = column_to_letter ((b / 26 - 1 : Nat) : Int) := String.ext hsplit.1
      have hdiv : a / 26 - 1 = b / 26 - 1 := ih (a / 26 - 1) (by omega) _ hpre
      have hchar : (a % 26 + 65) = (b % 26 + 65) → a % 26 = b % 26 := by omega
      have hmod : a % 26 = b % 26 := by
        have := hsplit.2
        simp only [String.singleton] at this
        injection this with hc _
        exact letter_char_inj (a % 26) (by omega) (b % 26) (by omega) hc
      omega

/-- C6: the column-letter conversion follows the bijective base-26 scheme of
the source loop (take `index mod 26` as letter, continue with
`index div 26 - 1`), is injective on the natural-number indices, and maps
0, 1, 25, 26, 51, 701 to "A", "B", "Z", "AA", "AZ", "ZZ". -/
theorem C6_column_letter_bijective :
    (∀ a b : Nat, column_to_letter (a : Int) = column_to_letter (b : Int) → a = b)
    ∧ column_to_letter 0 = "A" ∧ column_to_letter 1 = "B"
    ∧ column_to_letter 25 = "Z" ∧ column_to_letter 26 = "AA"
    ∧ column_to_letter 51 = "AZ" ∧ column_to_letter 701 = "ZZ" :=
  ⟨column_to_letter_inj, by decide, by decide, by decide, by decide, by decide, by decide⟩

/-- Witness for C6: the injectivity part applied at a concrete index. -/
theorem C6_witness :
    column_to_letter ((3 : Nat) : Int) = column_to_letter ((3 : Nat) : Int)
      ∧ (3 : Nat) = 3 :=
  ⟨rfl, C6_column_letter_bijective.1 3 3 rfl⟩

/-- C10: `column_to_letter` is total: a negative index returns `""` without
entering the loop, each iteration strictly decreases the index
(`index div 26 - 1 < index` for `index ≥ 0`), and any fuel bound larger than
the index yields the same final answer (the loop terminates). -/
theorem C10_column_to_letter_total :
    (∀ col : Int, col < 0 → column_to_letter col = "")
    ∧ (∀ col : Int, 0 ≤ col → Int.fdiv col 26 - 1 < col)
    ∧ (∀ (col : Int) (fuel : Nat), col.toNat < fuel →
        columnToLetterLoop fuel "" col = column_to_letter col) := by
  refine ⟨fun col h => column_to_letter_neg col h, fun col h => fdiv_sub_one_lt col h, ?_⟩
  intro col fuel h
  show columnToLetterLoop fuel "" col = columnToLetterLoop (col.toNat + 1) "" col
  rcases Nat.le_total fuel (col.toNat + 1) with hle | hle
  · exact loop_stable_ge fuel (col.toNat + 1) col "" h hle
  · exact (loop_stable_ge (col.toNat + 1) fuel col "" (by omega) hle).symm

/-- Witness for C10: each part applied at a concrete input. -/
theorem C10_witness :
    ((-5 : Int) < 0 ∧ column_to_letter (-5) = "")
    ∧ ((0 : Int) ≤ 27 ∧ Int.fdiv 27 26 - 1 < 27)
    ∧ ((27 : Int).toNat < 30 ∧ columnToLetterLoop 30 "" 27 = column_to_letter 27) :=
  ⟨⟨by decide, C10_column_to_letter_total.1 (-5) (by decide)⟩,
   ⟨by decide, C10_column_to_letter_total.2.1 27 (by decide)⟩,
   ⟨by decide, C10_column_to_letter_total.2.2 27 30 (by decide)⟩⟩

/-! ## Cache behaviour: C7 and C1 -/

/-- C7: if a `get_patients` read at `t1` finds the snapshot stale, it performs
the one remote fetch of the pair and stamps the snapshot with `t1`; a second
read at `t2` within TTL of that refresh performs no fetch and returns the
identical record set. -/
theorem C7_cache_ttl (V : List (List String)) (s : CacheState) (t1 t2 : Nat)
    (hstale : CACHE_TTL < t1 - s.last_cache_time) (h12 : t1 ≤ t2)
    (hwithin : t2 - t1 ≤ CACHE_TTL) :
    get_cached_patients (.ok V) t1 s
      = .ok (refreshRecords V, ⟨t1, refreshRecords V⟩, true)
    ∧ get_cached_patients (.ok V) t2 ⟨t1, refreshRecords V⟩
      = .ok (refreshRecords V, ⟨t1, refreshRecords V⟩, false) := by
  constructor
  · simp [get_cached_patients, hstale]
  · have hfresh : ¬ (t2 - t1 > CACHE_TTL) := by omega
    simp [get_cached_patients, hfresh]

/-- Witness for C7 at a concrete state, sheet and pair of call times. -/
theorem C7_witness :
    get_cached_patients (.ok [["Patient ID"], ["P1"]]) 100 ⟨0, []⟩
      = .ok (refreshRecords [["Patient ID"], ["P1"]],
             ⟨100, refreshRecords [["Patient ID"], ["P1"]]⟩, true)
    ∧ get_cached_patients (.ok [["Patient ID"], ["P1"]]) 120
        ⟨100, refreshRecords [["Patient ID"], ["P1"]]⟩
      = .ok (refreshRecords [["Patient ID"], ["P1"]],
             ⟨100, refreshRecords [["Patient ID"], ["P1"]]⟩, false) :=
  C7_cache_ttl [["Patient ID"], ["P1"]] ⟨0, []⟩ 100 120 (by decide) (by decide) (by decide)

/-- C1 fails on the code: a successful attendance update does **not**
invalidate the cache.  Concretely: with the sheet holding P1 at Visit Count
"2" and a snapshot refreshed at time 100, the attendance write succeeds and
rewrites the sheet to "3", yet the cache timestamp stays 100, and a
`get_patients` read at time 110 (within TTL) performs no remote fetch and
returns the stale records, which differ from the post-write sheet's records. -/
theorem C1_counterexample :
    (sysMarkAttendance "confirm" "P1"
        ⟨[["Patient ID", "Visit Count"], ["P1", "2"]],
         ⟨100, refreshRecords [["Patient ID", "Visit Count"], ["P1", "2"]]⟩⟩).2.status
      = "updated"
    ∧ (sysMarkAttendance "confirm" "P1"
        ⟨[["Patient ID", "Visit Count"], ["P1", "2"]],
         ⟨100, refreshRecords [["Patient ID", "Visit Count"], ["P1", "2"]]⟩⟩).1
      = ⟨[["Patient ID", "Visit Count"], ["P1", "3"]],
         ⟨100, refreshRecords [["Patient ID", "Visit Count"], ["P1", "2"]]⟩⟩
    ∧ get_cached_patients
        (.ok [["Patient ID", "Visit Count"], ["P1", "3"]]) 110
        ⟨100, refreshRecords [["Patient ID", "Visit Count"], ["P1", "2"]]⟩
      = .ok (refreshRecords [["Patient ID", "Visit Count"], ["P1", "2"]],
             ⟨100, refreshRecords [["Patient ID", "Visit Count"], ["P1", "2"]]⟩, false)
    ∧ refreshRecords [["Patient ID", "Visit Count"], ["P1", "2"]]
        ≠ refreshRecords [["Patient ID", "Visit Count"], ["P1", "3"]] :=
  ⟨by decide, by decide, rfl, by decide⟩

/-- C1 as amended: only the patient add resets `_last_cache_time` (to 0), so
the next `get_patients` at any time past the TTL fetches remotely and returns
the records of the post-write sheet; the attendance update performs no cache
invalidation. -/
theorem C1_amended_add_invalidates :
    (∀ (d : Payload) (s : Sys),
        (sysAddPatient d s).1.cache.last_cache_time = 0
        ∧ (sysAddPatient d s).2.code = 201
        ∧ (sysAddPatient d s).1.sheet = s.sheet ++ [(add_patient_row d).map pyStr])
    ∧ (∀ (V : List (List String)) (now : Nat) (s : CacheState),
        s.last_cache_time = 0 → CACHE_TTL < now →
        get_cached_patients (.ok V) now s
          = .ok (refreshRecords V, ⟨now, refreshRecords V⟩, true)) := by
  constructor
  · intro d s
    exact ⟨rfl, rfl, rfl⟩
  · intro V now s h0 hnow
    have hstale : now - s.last_cache_time > CACHE_TTL := by omega
    simp [get_cached_patients, hstale]

/-- Witness for the amended C1 at a concrete payload, sheet and time. -/
theorem C1_witness :
    ((⟨0, []⟩ : CacheState).last_cache_time = 0 ∧ CACHE_TTL < 40)
    ∧ get_cached_patients (.ok [["Patient ID"], ["P7"]]) 40 ⟨0, []⟩
        = .ok (refreshRecords [["Patient ID"], ["P7"]],
               ⟨40, refreshRecords [["Patient ID"], ["P7"]]⟩, true) :=
  ⟨⟨rfl, by decide⟩, C1_amended_add_invalidates.2 [["Patient ID"], ["P7"]] 40 ⟨0, []⟩ rfl (by decide)⟩

/-! ## Record-shape lemmas: C2 -/

theorem map_fst_keyed {β : Type} (L : List String) (v : String → β) :
    ((L.map (fun h => (h, v h))).map Prod.fst) = L := by
  induction L with
  | nil => rfl
  | cons a l ih => simp [ih]

theorem lookup_keyed {β : Type} (L : List String) (v : String → β) (h : String)
    (hmem : h ∈ L) :
    List.lookup h (L.map (fun x => (x, v x))) = some (v h) := by
  induction L with
  | nil => cases hmem
  | cons a l ih =>
    simp only [List.map_cons, List.lookup]
    by_cases hha : h = a
    · simp [hha]
    · have : (h == a) = false := by simp [hha]
      rw [this]
      exact ih (by rcases List.mem_cons.mp hmem with h1 | h1; exact absurd h1 hha; exact h1)

theorem anyKey_eq_keys_any (d : Dict) (k : String) :
    d.any (fun kv => kv.1 == k) = (d.map Prod.fst).any (fun x => x == k) := by
  induction d with
  | nil => rfl
  | cons a l ih => simp [ih]

theorem buildPatient_keys (headers row : List String) :
    (buildPatient headers row).map Prod.fst = CANONICAL_HEADERS :=
  map_fst_keyed CANONICAL_HEADERS _

theorem refreshRecords_keys (values : List (List String)) (p : Dict)
    (hp : p ∈ refreshRecords values) : p.map Prod.fst = CANONICAL_HEADERS := by
  match values with
  | [] => cases hp
  | headers :: data_rows =>
    rcases List.mem_map.mp hp with ⟨row, _, hrow⟩
    rw [← hrow]
    exact buildPatient_keys headers row

theorem applyTodayDefaults_keys (p : Dict)
    (hk : p.map Prod.fst = CANONICAL_HEADERS) :
    (applyTodayDefaults p).map Prod.fst = CANONICAL_HEADERS ++ ["Patient_ID"] := by
  unfold applyTodayDefaults
  have h1 : setdefault p "Visit Count" "0" = p := by
    unfold setdefault
    rw [anyKey_eq_keys_any, hk]
    simp [CANONICAL_HEADERS]
  have h2 : setdefault p "Patient ID" "" = p := by
    unfold setdefault
    rw [anyKey_eq_keys_any, hk]
    simp [CANONICAL_HEADERS]
  rw [h1, h2]
  have h3 : p.any (fun kv => kv.1 == "Patient_ID") = false := by
    rw [anyKey_eq_keys_any, hk]
    decide
  unfold setdefault
  rw [h3]
  simp [hk]

theorem todayLoop_snd_shape (today : String) (l : List Dict) :
    ∀ p ∈ (todayLoop today l).2, ∃ q ∈ l, p = applyTodayDefaults q := by
  induction l with
  | nil => intro p hp; cases hp
  | cons a rest ih =>
    intro p hp
    unfold todayLoop at hp
    by_cases hm : matches_today today
        (parse_visit_days ((List.lookup "Visit Days" a).getD "")) = true
    · rw [if_pos hm] at hp
      rcases List.mem_cons.mp hp with h1 | h1
      · exact ⟨a, List.mem_cons_self a rest, h1⟩
      · rcases ih p h1 with ⟨q, hq, hpq⟩
        exact ⟨q, List.mem_cons_of_mem a hq, hpq⟩
    · rw [if_neg hm] at hp
      rcases ih p hp with ⟨q, hq, hpq⟩
      exact ⟨q, List.mem_cons_of_mem a hq, hpq⟩

/-- The per-record key lists of a response body (used to state C2). -/
def keyLists : ApiBody → List (List String)
  | .records rs => rs.map (fun p => p.map Prod.fst)
  | .obj _ _ _ _ => []

/-- C2 fails on the code: `GET /api/patients/today` presents a record with a
fourteenth key `Patient_ID` (added by `setdefault`), not exactly the 13
canonical keys.  Concretely: a sheet with one patient whose Visit Days is
"daily" (so it matches every date) yields a today-record whose key list is
`CANONICAL_HEADERS ++ ["Patient_ID"]`. -/
theorem C2_counterexample :
    keyLists (get_today_patients "monday"
        (.ok [["Patient ID", "Visit Days"], ["P1", "daily"]]) 100 ⟨0, []⟩).body
      = [CANONICAL_HEADERS ++ ["Patient_ID"]]
    ∧ CANONICAL_HEADERS ++ ["Patient_ID"] ≠ CANONICAL_HEADERS :=
  ⟨by decide, by decide⟩

/-- C2 as amended: every record built by a cache refresh (and hence presented
by `GET /api/patients`) has exactly the 13 canonical keys, with `""` whenever
the canonical header is absent from the sheet's header row or the row is too
short; records presented by `GET /api/patients/today` additionally carry the
back-compat key `Patient_ID`, giving key list `CANONICAL_HEADERS ++ ["Patient_ID"]`. -/
theorem C2_amended_record_keys :
    (∀ (values : List (List String)) (p : Dict), p ∈ refreshRecords values →
        p.map Prod.fst = CANONICAL_HEADERS)
    ∧ (∀ (headers row : List String) (h : String), h ∈ CANONICAL_HEADERS →
        headers.findIdx? (fun x => x == h) = none →
        List.lookup h (buildPatient headers row) = some "")
    ∧ (∀ (headers row : List String) (h : String) (i : Nat), h ∈ CANONICAL_HEADERS →
        headers.findIdx? (fun x => x == h) = some i → row.length ≤ i →
        List.lookup h (buildPatient headers row) = some "")
    ∧ (∀ (today : String) (values : List (List String)) (p : Dict),
        p ∈ (todayLoop today (refreshRecords values)).2 →
        p.map Prod.fst = CANONICAL_HEADERS ++ ["Patient_ID"]) := by
  refine ⟨refreshRecords_keys, ?_, ?_, ?_⟩
  · intro headers row h hmem hnone
    unfold buildPatient
    rw [lookup_keyed CANONICAL_HEADERS _ h hmem, hnone]
  · intro headers row h i hmem hsome hlen
    unfold buildPatient
    rw [lookup_keyed CANONICAL_HEADERS _ h hmem, hsome]
    show some (row.getD i "") = some ""
    rw [List.getD_eq_default _ _ hlen]
  · intro today values p hp
    rcases todayLoop_snd_shape today _ p hp with ⟨q, hq, hpq⟩
    rw [hpq]
    exact applyTodayDefaults_keys q (refreshRecords_keys values q hq)

/-- Witness for the amended C2 at a concrete sheet and record. -/
theorem C2_witness :
    (buildPatient ["Name"] ["Alice", "x"]).map Prod.fst = CANONICAL_HEADERS
    ∧ List.lookup "Age" (buildPatient ["Name"] ["Alice", "x"]) = some ""
    ∧ List.lookup "Name" (buildPatient ["Name", "Age"] []) = some "" := by
  refine ⟨?_, ?_, ?_⟩
  · exact C2_amended_record_keys.1 [["Name"], ["Alice", "x"]]
      (buildPatient ["Name"] ["Alice", "x"]) (by decide)
  · exact C2_amended_record_keys.2.1 ["Name"] ["Alice", "x"] "Age" (by decide) (by decide)
  · exact C2_amended_record_keys.2.2.1 ["Name", "Age"] [] "Name" 0 (by decide) (by decide)
      (by decide)

/-! ## Day matching: C3 -/

theorem isPrefixOf_self (l : List Char) : List.isPrefixOf l l = true := by
  induction l with
  | nil => rfl
  | cons a as ih => simp [List.isPrefixOf, ih]

theorem pyIn_self (s : String) : pyIn s s = true := by
  unfold pyIn
  cases h : s.toList with
  | nil => rfl
  | cons c rest => simp [listIn, isPrefixOf_self]

/-- The matching rule exactly as the claim words it: a token *equals*
`"daily"`, equals the full weekday name or its three-letter prefix, or
*contains* the full name or the prefix as a substring. -/
def matchesTodaySpec (today_full : String) (tokens : List String) : Bool :=
  tokens.any (fun t =>
    t == "daily" || t == today_full || t == String.mk (today_full.toList.take 3)
      || pyIn today_full t || pyIn (String.mk (today_full.toList.take 3)) t)

/-- C3 fails on the code: the source tests `"daily" in t` (substring), not
`t == "daily"`.  The token "undailyed" contains "daily" but neither equals it
nor contains "monday"/"mon", so the code matches while the claim's rule does
not. -/
theorem C3_counterexample :
    matches_today "monday" ["undailyed"] = true
    ∧ matchesTodaySpec "monday" ["undailyed"] = false :=
  ⟨by decide, by decide⟩

theorem matches_today_eq_any (today_full : String) (tokens : List String) :
    matches_today today_full tokens
      = tokens.any (fun t =>
          pyIn "daily" t || pyIn today_full t
            || pyIn (String.mk (today_full.toList.take 3)) t) := by
  induction tokens with
  | nil => rfl
  | cons t ts ih =>
    rw [List.any_cons, ← ih]
    show (if pyIn "daily" t then true
      else if t == today_full || t == String.mk (today_full.toList.take 3) then true
      else if pyIn today_full t || pyIn (String.mk (today_full.toList.take 3)) t then true
      else matches_today today_full ts) = _
    by_cases h1 : pyIn "daily" t = true
    · simp [h1]
    · rw [if_neg (by simp [h1])]
      by_cases h2 : (t == today_full || t == String.mk (today_full.toList.take 3)) = true
      · rw [if_pos h2]
        simp only [Bool.or_eq_true, beq_iff_eq] at h2
        rcases h2 with he | he <;> subst he <;> simp [pyIn_self]
      · rw [if_neg h2]
        by_cases h3 : (pyIn today_full t || pyIn (String.mk (today_full.toList.take 3)) t) = true
        · rw [if_pos h3]
          simp only [Bool.or_eq_true] at h3
          simp only [String.toList] at h3 ⊢
          rcases h3 with he | he <;> simp [he]
        · rw [if_neg h3]
          simp only [Bool.or_eq_true, not_or, Bool.not_eq_true] at h1 h3
          simp only [String.toList] at h3 ⊢
          simp [h1, h3.1, h3.2]

/-- C3 as amended: `matches_today` returns true iff some token *contains*
`"daily"`, the full weekday name, or its three-letter prefix as a substring
(equality is the special case of containment); in particular `["daily"]`
matches on every date, and on a Saturday the tokens "sat", "saturday" and
"satx" all match. -/
theorem C3_amended_substring_match :
    (∀ (today_full : String) (tokens : List String),
        matches_today today_full tokens
          = tokens.any (fun t =>
              pyIn "daily" t || pyIn today_full t
                || pyIn (String.mk (today_full.toList.take 3)) t))
    ∧ (∀ today_full : String, matches_today today_full ["daily"] = true)
    ∧ matches_today "saturday" ["sat"] = true
    ∧ matches_today "saturday" ["saturday"] = true
    ∧ matches_today "saturday" ["satx"] = true := by
  refine ⟨matches_today_eq_any, ?_, by decide, by decide, by decide⟩
  intro today_full
  rw [matches_today_eq_any]
  simp [pyIn_self]

/-! ## Attendance update: C4 -/

theorem scanRows_first_match (pid : String) (pid_col vc_col : Nat)
    (pre : List (List String)) (target : List String) (rest : List (List String))
    (c : Int) (hpre : ∀ r ∈ pre, rowPid pid_col r ≠ pid)
    (hmatch : rowPid pid_col target = pid)
    (hcount : rowCount vc_col target = some c) :
    ∀ start : Nat, scanRows pid pid_col vc_col start (pre ++ target :: rest)
      = .updated (start + pre.length) (c + 1) := by
  induction pre with
  | nil =>
    intro start
    simp only [List.nil_append, scanRows]
    rw [if_pos (by simp [hmatch]), hcount]
    simp
  | cons r pre' ih =>
    intro start
    simp only [List.cons_append, scanRows]
    rw [if_neg (by simp [hpre r (List.mem_cons_self r pre')])]
    show scanRows pid pid_col vc_col (start + 1) (pre' ++ target :: rest) = _
    rw [ih (fun x hx => hpre x (List.mem_cons_of_mem r hx)) (start + 1)]
    simp only [List.length_cons]
    congr 1
    omega

/-- C4 fails on the code: an *unparseable* (nonempty, non-integer) Visit
Count cell is not treated as 0 — `int("abc")` raises `ValueError`, which the
handler's `except` turns into an error response, not an update.  Concretely,
with the matching row's Visit Count cell "abc" the handler responds with
status "error" and code 500 rather than "updated" with count 1. -/
theorem C4_counterexample :
    mark_attendance "confirm" "P1" (.ok [["Patient ID", "Visit Count"], ["P1", "abc"]])
      = ⟨"error", some "invalid literal for int() with base 10: 'abc'",
         none, none, 500, none⟩
    ∧ (mark_attendance "confirm" "P1"
        (.ok [["Patient ID", "Visit Count"], ["P1", "abc"]])).status ≠ "updated" :=
  ⟨by decide, by decide⟩

/-- C4 as amended: for action "confirm" the handler scans data rows
top-to-bottom and, for the first row whose Patient ID cell equals the path
parameter (later duplicate rows are never touched — the single cell write
recorded targets that row), computes new count = old Visit Count + 1 where a
*missing or empty* Visit Count cell counts as 0, writes the new count back to
that row's Visit Count cell as a string, and responds "updated" with the new
count; a nonempty non-integer cell instead produces an error response. -/
theorem C4_amended_first_match_updated
    (pid : String) (headers : List String) (pre : List (List String))
    (target : List String) (rest : List (List String))
    (pid_col vc_col : Nat) (c : Int)
    (hpid : pidColOf headers = some pid_col)
    (hvc : vcColOf headers = some vc_col)
    (hpre : ∀ r ∈ pre, rowPid pid_col r ≠ pid)
    (hmatch : rowPid pid_col target = pid)
    (hcount : rowCount vc_col target = some c) :
    mark_attendance "confirm" pid (.ok (headers :: (pre ++ target :: rest)))
      = ⟨"updated", none, some pid, some (c + 1), 200,
         some (2 + pre.length, vc_col, toString (c + 1))⟩ := by
  obtain ⟨d, ds, hdd⟩ : ∃ d ds, pre ++ target :: rest = d :: ds := by
    cases pre with
    | nil => exact ⟨target, rest, rfl⟩
    | cons x xs => exact ⟨x, xs ++ target :: rest, rfl⟩
  rw [hdd]
  unfold mark_attendance
  rw [if_neg (by decide)]
  show markColsResponse pid (d :: ds) (pidColOf headers) (vcColOf headers) = _
  rw [hpid, hvc]
  show markScanResponse pid vc_col (scanRows pid pid_col vc_col 2 (d :: ds)) = _
  rw [← hdd, scanRows_first_match pid pid_col vc_col pre target rest c hpre hmatch hcount 2]
  rfl

/-- Witness for the amended C4: a sheet with a non-matching row above the
target and a duplicate below; the update hits row 3 (the first match) and the
duplicate is left alone. -/
theorem C4_witness :
    mark_attendance "confirm" "P1"
        (.ok [["Patient ID", "Visit Count"], ["P0", "7"], ["P1", "2"], ["P1", "9"]])
      = ⟨"updated", none, some "P1", some 3, 200, some (3, 1, "3")⟩ :=
  C4_amended_first_match_updated "P1" ["Patient ID", "Visit Count"]
    [["P0", "7"]] ["P1", "2"] [["P1", "9"]] 0 1 2
    (by decide) (by decide) (by decide) (by decide) (by decide)

/-! ## Error responses: C5 -/

theorem markColsResponse_error_code (pid : String) (data_rows : List (List String))
    (pc? vc? : Option Nat)
    (h : (markColsResponse pid data_rows pc? vc?).status = "error") :
    (markColsResponse pid data_rows pc? vc?).code = 500 := by
  match pc?, vc? with
  | none, none => rfl
  | none, some vc => rfl
  | some pc, none => rfl
  | some pc, some vc =>
    replace h : (markScanResponse pid vc (scanRows pid pc vc 2 data_rows)).status = "error" := h
    show (markScanResponse pid vc (scanRows pid pc vc 2 data_rows)).code = 500
    cases hsr : scanRows pid pc vc 2 data_rows with
    | updated rn nc => rw [hsr] at h; simp [markScanResponse] at h
    | parseFailure cell => rfl
    | notFound => rw [hsr] at h; simp [markScanResponse] at h

theorem mark_attendance_error_code (action pid : String)
    (fetch : Except String (List (List String)))
    (h : (mark_attendance action pid fetch).status = "error") :
    (mark_attendance action pid fetch).code = 500
    ∨ ((mark_attendance action pid fetch).code = 404
        ∧ (mark_attendance action pid fetch).message = some "No data in sheet") := by
  revert h
  unfold mark_attendance
  by_cases ha : (pyLower action != "confirm") = true
  · rw [if_pos ha]
    intro h
    exact absurd h (by decide)
  · rw [if_neg ha]
    match fetch with
    | .error e => intro h; left; rfl
    | .ok [] => intro h; right; exact ⟨rfl, rfl⟩
    | .ok [x] => intro h; right; exact ⟨rfl, rfl⟩
    | .ok (headers :: d :: ds) =>
      intro h
      left
      exact markColsResponse_error_code pid (d :: ds) _ _ h

theorem get_patients_error_code (fetch : Except String (List (List String)))
    (now : Nat) (s : CacheState)
    (h : (get_patients fetch now s).body.statusOf = some "error") :
    (get_patients fetch now s).code = 500 := by
  revert h
  unfold get_patients
  match hg : get_cached_patients fetch now s with
  | .ok (recs, s', b) => intro h; exact Option.noConfusion h
  | .error e => intro h; rfl

theorem get_today_patients_error_code (today : String)
    (fetch : Except String (List (List String))) (now : Nat) (s : CacheState)
    (h : (get_today_patients today fetch now s).body.statusOf = some "error") :
    (get_today_patients today fetch now s).code = 500 := by
  revert h
  unfold get_today_patients
  match hg : get_cached_patients fetch now s with
  | .ok (recs, s', b) => intro h; exact Option.noConfusion h
  | .error e => intro h; rfl

theorem add_patient_error_code (ar : Except String Unit)
    (h : (add_patient ar).body.statusOf = some "error") :
    (add_patient ar).code = 500 := by
  match ar with
  | .ok u => cases u; exact absurd h (by decide)
  | .error e => rfl

/-- C5 fails on the code: the attendance handler's "No data in sheet" failure
returns the error-shaped body with HTTP 404, which is not a 5xx code. -/
theorem C5_counterexample :
    mark_attendance "confirm" "P1" (.ok [])
      = ⟨"error", some "No data in sheet", none, none, 404, none⟩
    ∧ ¬ (500 ≤ (mark_attendance "confirm" "P1" (.ok [])).code
          ∧ (mark_attendance "confirm" "P1" (.ok [])).code ≤ 599) :=
  ⟨by decide, by decide⟩

/-- C5 as amended: every handler failure surfaces as a body with status
"error" and code 500, except the attendance handler's empty-sheet case,
which pairs the error body with 404 and message "No data in sheet"; no
handler propagates an exception (all four handler functions are total). -/
theorem C5_amended_error_codes :
    (∀ (action pid : String) (fetch : Except String (List (List String))),
        (mark_attendance action pid fetch).status = "error" →
        (mark_attendance action pid fetch).code = 500
          ∨ ((mark_attendance action pid fetch).code = 404
              ∧ (mark_attendance action pid fetch).message = some "No data in sheet"))
    ∧ (∀ (fetch : Except String (List (List String))) (now : Nat) (s : CacheState),
        (get_patients fetch now s).body.statusOf = some "error" →
        (get_patients fetch now s).code = 500)
    ∧ (∀ (today : String) (fetch : Except String (List (List String)))
          (now : Nat) (s : CacheState),
        (get_today_patients today fetch now s).body.statusOf = some "error" →
        (get_today_patients today fetch now s).code = 500)
    ∧ (∀ ar : Except String Unit,
        (add_patient ar).body.statusOf = some "error" → (add_patient ar).code = 500) :=
  ⟨mark_attendance_error_code, get_patients_error_code,
   get_today_patients_error_code, add_patient_error_code⟩

/-- Witness for the amended C5: a failing remote fetch during a stale read
and a parse failure during an attendance update, both at concrete inputs. -/
theorem C5_witness :
    ((mark_attendance "confirm" "P1" (.ok [["Patient ID", "Visit Count"], ["P1", "x"]])).status
        = "error"
      ∧ ((mark_attendance "confirm" "P1"
            (.ok [["Patient ID", "Visit Count"], ["P1", "x"]])).code = 500
          ∨ ((mark_attendance "confirm" "P1"
                (.ok [["Patient ID", "Visit Count"], ["P1", "x"]])).code = 404
              ∧ (mark_attendance "confirm" "P1"
                  (.ok [["Patient ID", "Visit Count"], ["P1", "x"]])).message
                  = some "No data in sheet")))
    ∧ ((get_patients (.error "boom") 100 ⟨0, []⟩).body.statusOf = some "error"
        ∧ (get_patients (.error "boom") 100 ⟨0, []⟩).code = 500) :=
  ⟨⟨by decide, C5_amended_error_codes.1 "confirm" "P1"
      (.ok [["Patient ID", "Visit Count"], ["P1", "x"]]) (by decide)⟩,
   ⟨by decide, C5_amended_error_codes.2.1 (.error "boom") 100 ⟨0, []⟩ (by decide)⟩⟩

/-! ## Header resolution: C8 -/

theorem find_single_variant (h v k : String) (val : JVal)
    (hv : v ∈ findVariantsOf h)
    (hlow : pyLower k = pyLower v) :
    find_value_for_header [(k, val)] h = val := by
  unfold find_value_for_header
  cases hf : (findVariantsOf h).find? (fun u => [(k, val)].any (fun kv => kv.1 == u)) with
  | some u =>
    show (List.lookup u [(k, val)]).getD (JVal.str "") = val
    have hu := List.find?_some hf
    simp only [List.any_cons, List.any_nil, Bool.or_false, beq_iff_eq] at hu
    rw [← hu]
    simp [List.lookup]
  | none =>
    show findCaseInsensitive [(k, val)] h (findVariantsOf h) = val
    unfold findCaseInsensitive
    have hlm : lowerMap [(k, val)] = [(pyLower k, val)] := rfl
    rw [hlm]
    cases hf2 : (findVariantsOf h).find?
        (fun u => [(pyLower k, val)].any (fun kv => kv.1 == pyLower u)) with
    | some u =>
      show (List.lookup (pyLower u) [(pyLower k, val)]).getD (JVal.str "") = val
      have hu := List.find?_some hf2
      simp only [List.any_cons, List.any_nil, Bool.or_false, beq_iff_eq] at hu
      rw [← hu]
      simp [List.lookup]
    | none =>
      exfalso
      have hcon := List.find?_eq_none.mp hf2 v hv
      simp only [List.any_cons, List.any_nil, Bool.or_false, beq_iff_eq] at hcon
      exact hcon hlow

theorem find_no_match (d : Payload) (h : String)
    (hnolow : ∀ kv ∈ d, ∀ v ∈ findVariantsOf h, pyLower kv.1 ≠ pyLower v)
    (hnoh : ∀ kv ∈ d, kv.1 ≠ h) :
    find_value_for_header d h = JVal.str "" := by
  unfold find_value_for_header
  have hf1 : (findVariantsOf h).find? (fun u => d.any (fun kv => kv.1 == u)) = none := by
    rw [List.find?_eq_none]
    intro u hu hcon
    rw [List.any_eq_true] at hcon
    rcases hcon with ⟨kv, hkv, hbeq⟩
    exact hnolow kv hkv u hu (by rw [eq_of_beq hbeq])
  rw [hf1]
  show findCaseInsensitive d h (findVariantsOf h) = JVal.str ""
  unfold findCaseInsensitive
  have hf2 : (findVariantsOf h).find?
      (fun u => (lowerMap d).any (fun kv => kv.1 == pyLower u)) = none := by
    rw [List.find?_eq_none]
    intro u hu hcon
    rw [List.any_eq_true] at hcon
    rcases hcon with ⟨kv, hkv, hbeq⟩
    rcases List.mem_map.mp (List.mem_reverse.mp hkv) with ⟨orig, ho, heq⟩
    have hk1 : kv.1 = pyLower orig.1 := by rw [← heq]
    exact hnolow orig ho u hu (by rw [← hk1]; exact eq_of_beq hbeq)
  rw [hf2]
  show findFallback d h = JVal.str ""
  unfold findFallback
  have hany : ¬ (d.any (fun kv => kv.1 == h) = true) := by
    rw [List.any_eq_true]
    rintro ⟨kv, hkv, hbeq⟩
    exact hnoh kv hkv (eq_of_beq hbeq)
  rw [if_neg hany]

/-- C8: header resolution never raises (the function is total by
construction), a payload whose single key is any listed variant of a
canonical header, in any casing, resolves to that key's value, and a payload
in which no key matches any variant case-insensitively nor the header itself
resolves to the empty string. -/
theorem C8_header_resolution :
    (∀ (h v k : String) (val : JVal), v ∈ findVariantsOf h →
        pyLower k = pyLower v → find_value_for_header [(k, val)] h = val)
    ∧ (∀ (d : Payload) (h : String),
        (∀ kv ∈ d, ∀ v ∈ findVariantsOf h, pyLower kv.1 ≠ pyLower v) →
        (∀ kv ∈ d, kv.1 ≠ h) →
        find_value_for_header d h = JVal.str "") :=
  ⟨find_single_variant, find_no_match⟩

/-- Witness for C8: the upper-cased variant key "VISIT_COUNT" resolves to its
value for the canonical header "Visit Count", and an unrelated key resolves
to the empty string. -/
theorem C8_witness :
    find_value_for_header [("VISIT_COUNT", JVal.str "5")] "Visit Count" = JVal.str "5"
    ∧ find_value_for_header [("foo", JVal.str "1")] "Name" = JVal.str "" :=
  ⟨C8_header_resolution.1 "Visit Count" "visit_count" "VISIT_COUNT" (JVal.str "5")
      (by decide) (by decide),
   C8_header_resolution.2 [("foo", JVal.str "1")] "Name" (by decide) (by decide)⟩

/-! ## Row construction: C9 -/

theorem dictSet_map_keyed (L : List String) (v : String → JVal) (k : String) (w : JVal)
    (hmem : k ∈ L) (hnodup : L.Nodup) :
    dictSet (L.map (fun x => (x, v x))) k w
      = L.map (fun x => (x, if x = k then w else v x)) := by
  induction L with
  | nil => cases hmem
  | cons a rest ih =>
    simp only [List.map_cons, dictSet]
    by_cases hak : a = k
    · subst hak
      rw [if_pos (by simp)]
      simp only [if_pos rfl]
      congr 1
      apply List.map_congr_left
      intro x hx
      have hxa : x ≠ a := by
        intro hcontra
        subst hcontra
        exact (List.nodup_cons.mp hnodup).1 hx
      rw [if_neg hxa]
    · rw [if_neg (by simp [hak])]
      congr 1
      · rw [if_neg hak]
      · exact ih (by
          rcases List.mem_cons.mp hmem with h1 | h1
          · exact absurd h1.symm hak
          · exact h1) (List.nodup_cons.mp hnodup).2

theorem map_lookup_keyed (L : List String) (v : String → JVal) (dflt : JVal) :
    L.map (fun h => (List.lookup h (L.map (fun x => (x, v x)))).getD dflt) = L.map v := by
  apply List.map_congr_left
  intro a ha
  rw [lookup_keyed L v a ha]
  rfl

theorem standardizedWithDays_eq (d : Payload) :
    standardizedWithDays d
      = CANONICAL_HEADERS.map (fun x => (x,
          if x = "Visit Days" then
            JVal.str (visitDaysString (pyOr (find_value_for_header d "Visit Days")))
          else pyOr (find_value_for_header d x))) := by
  unfold standardizedWithDays standardizedBase
  rw [dictSet_map_keyed CANONICAL_HEADERS _ "Visit Days" _ (by decide) (by decide)]

theorem standardized_vc (d : Payload) :
    (List.lookup "Visit Count" (standardizedWithDays d)).getD (JVal.str "0")
      = pyOr (find_value_for_header d "Visit Count") := by
  rw [standardizedWithDays_eq, lookup_keyed CANONICAL_HEADERS _ "Visit Count" (by decide)]
  simp

theorem standardizedData_eq (d : Payload) :
    standardizedData d
      = CANONICAL_HEADERS.map (fun x => (x,
          if x = "Visit Count" then
            JVal.str (pyStr (pyOr (find_value_for_header d "Visit Count")))
          else if x = "Visit Days" then
            JVal.str (visitDaysString (pyOr (find_value_for_header d "Visit Days")))
          else pyOr (find_value_for_header d x))) := by
  unfold standardizedData
  rw [standardized_vc, standardizedWithDays_eq,
    dictSet_map_keyed CANONICAL_HEADERS _ "Visit Count" _ (by decide) (by decide)]

/-- Per-field description of the appended row: each cell is the resolved
payload value (with `or ""` coercing falsy values), Visit Count coerced to
its string form, Visit Days reduced to its joined string. -/
def resolvedCell (d : Payload) (h : String) : JVal :=
  if h = "Visit Days" then
    .str (visitDaysString (pyOr (find_value_for_header d "Visit Days")))
  else if h = "Visit Count" then
    .str (pyStr (pyOr (find_value_for_header d "Visit Count")))
  else pyOr (find_value_for_header d h)

theorem add_patient_row_eq (d : Payload) :
    add_patient_row d = CANONICAL_HEADERS.map (resolvedCell d) := by
  unfold add_patient_row
  rw [standardizedData_eq, map_lookup_keyed]
  apply List.map_congr_left
  intro x hx
  unfold resolvedCell
  by_cases h1 : x = "Visit Days"
  · subst h1
    simp
  · by_cases h2 : x = "Visit Count" <;> simp [h1, h2]

/-- The Visit Days join exactly as the claim words it: every entry trimmed,
capitalized and joined with ", " — with no dropping of blank entries. -/
def claimVisitDaysJoin (l : List String) : String :=
  String.intercalate ", " (l.map (fun x => pyCapitalize (pyTrim x)))

/-- C9 fails on the code in one detail: the list comprehension *filters out*
entries that are empty after trimming, so the Visit Days cell for
`["mon", " "]` is "Mon", not the claim's "join trim-capitalized entries"
value "Mon, ". -/
theorem C9_counterexample :
    (add_patient_row [("Visit Days", JVal.list ["mon", " "])]).getD 11 (JVal.str "?")
      = JVal.str "Mon"
    ∧ claimVisitDaysJoin ["mon", " "] = "Mon, "
    ∧ ("Mon" : String) ≠ "Mon, " :=
  ⟨by decide, by decide, by decide⟩

/-- C9 as amended: the appended row has exactly 13 cells in canonical column
order; each cell is the value resolved for its canonical field (empty string
when unresolved), Visit Count is coerced to its string form, and a
list-valued Visit Days is joined with ", " after trimming and capitalizing
each entry, *dropping entries that are empty after trimming*; on success the
response code is 201 (and the cache is invalidated). -/
theorem C9_amended_row_construction :
    (∀ d : Payload, add_patient_row d = CANONICAL_HEADERS.map (resolvedCell d))
    ∧ (∀ d : Payload, (add_patient_row d).length = 13)
    ∧ (add_patient (.ok ())).code = 201
    ∧ (add_patient (.ok ())).cacheInvalidated = true := by
  refine ⟨add_patient_row_eq, ?_, rfl, rfl⟩
  intro d
  rw [add_patient_row_eq, List.length_map]
  rfl
